import Mathlib

/-!
Shallow embedding of `src/Servers/IIS/AspNetCoreModuleV2/CommonLib/Environment.cpp`.

Two parts are embedded:

* the buffered "probe required size, then fill" query adapter, as instantiated
  by `ExpandEnvironmentVariables`, `GetEnvironmentVariableValue`,
  `GetCurrentDirectoryValue` and `GetDllDirectoryValue`; and
* the directory synchronizer `CopyToDirectory` / `CopyDirTo`.

The OS facilities (`ExpandEnvironmentStringsW`, `GetEnvironmentVariableW`,
`GetCurrentDirectory`, `GetDllDirectory`, `CreateDirectory`, `CopyFile`,
`std::filesystem`) are external to this repository; they are modelled as
oracles.  For the query adapter the oracle is a sequence `env : Nat → OsState`
giving the state of the queried value at the k-th OS call; the numeric return
value of each call is derived from that state by the documented Windows
convention (the convention the C++ code itself relies on and comments on):
a call whose buffer is too small reports the required size *including* the
terminating null character, a successful fill reports the number of characters
copied *excluding* it (`ExpandEnvironmentStringsW` reports the size including
the terminator in both cases).  Buffers are modelled without the terminator:
buffer sizes follow the C++ accounting (so include the terminator slot), while
the modelled content is the terminator-free string, which absorbs the final
`resize(requestedSize - 1)` / `resize(requestedSize)` trimming of the C++.
-/

/-- State of the OS-managed value at one call of the facility:
the value does not exist (`GetLastError` will report
`ERROR_ENVVAR_NOT_FOUND`, or for `GetDllDirectory` a zero size with no error),
the call fails with an OS error code, or the value is the string `v`. -/
inductive OsState where
  | missing
  | failed (code : Nat)
  | value (v : String)
deriving DecidableEq, Repr

/-- Windows error code `ERROR_ENVVAR_NOT_FOUND`. -/
def ERROR_ENVVAR_NOT_FOUND : Nat := 203

/-- Windows `ERROR_SUCCESS`. -/
def ERROR_SUCCESS : Nat := 0

/-- Result of one OS call: the returned `DWORD`, the value of `GetLastError()`
after the call, and the (terminator-free) content placed in the buffer. -/
structure OsCallResult where
  ret : Nat
  err : Nat
  buf : String
deriving DecidableEq, Repr

/-- One call of `GetEnvironmentVariableW` (also the convention of
`GetCurrentDirectory`): with a buffer of `bufSize` characters, a present value
`v` is copied and its length (excluding the terminator) returned when
`v.length + 1 ≤ bufSize`; otherwise the required size `v.length + 1` is
returned and nothing is copied.  A missing variable returns `0` with
`ERROR_ENVVAR_NOT_FOUND`; a failing call returns `0` with its error code. -/
def gevCall (st : OsState) (bufSize : Nat) : OsCallResult :=
  match st with
  | OsState.value v =>
      if v.length + 1 ≤ bufSize then ⟨v.length, ERROR_SUCCESS, v⟩
      else ⟨v.length + 1, ERROR_SUCCESS, ""⟩
  | OsState.failed c => ⟨0, c, ""⟩
  | OsState.missing => ⟨0, ERROR_ENVVAR_NOT_FOUND, ""⟩

/-- One call of `ExpandEnvironmentStringsW`: the required size including the
terminator is returned whether or not the buffer was large enough (the content
is complete exactly when it was); `0` is returned only on failure. -/
def expCall (st : OsState) (bufSize : Nat) : OsCallResult :=
  match st with
  | OsState.value v =>
      if v.length + 1 ≤ bufSize then ⟨v.length + 1, ERROR_SUCCESS, v⟩
      else ⟨v.length + 1, ERROR_SUCCESS, String.take v bufSize⟩
  | OsState.failed c => ⟨0, c, ""⟩
  | OsState.missing => ⟨0, ERROR_ENVVAR_NOT_FOUND, ""⟩

/-- One call of `GetDllDirectory`: same size convention as `gevCall`, but "no
directory set" reports size `0` while leaving the last error at
`ERROR_SUCCESS` (the ambiguity the C++ works around with `SetLastError`). -/
def gddCall (st : OsState) (bufSize : Nat) : OsCallResult :=
  match st with
  | OsState.value v =>
      if v.length + 1 ≤ bufSize then ⟨v.length, ERROR_SUCCESS, v⟩
      else ⟨v.length + 1, ERROR_SUCCESS, ""⟩
  | OsState.failed c => ⟨0, c, ""⟩
  | OsState.missing => ⟨0, ERROR_SUCCESS, ""⟩

/-- Outcome of a query operation: `notFound` models `std::nullopt`, `ok`
models a returned string, `osError code operation` models
`throw std::system_error(code, std::system_category(), operation)`. -/
inductive EnvResult where
  | notFound
  | ok (s : String)
  | osError (code : Nat) (operation : String)
deriving DecidableEq, Repr

/-- Retry loop of `ExpandEnvironmentVariables` (`Environment.cpp` lines 19-27):
`requestedSize` is the size the buffer is resized to; the loop exits when the
size reported by the fill call equals the buffer size.  `k` is the index of the
next OS call; `fuel` bounds the iterations (`none` = fuel exhausted, the C++
loop would still be running). -/
def expLoop (env : Nat → OsState) : Nat → Nat → Nat → Option EnvResult
  | _, _, 0 => none
  | k, requestedSize, fuel+1 =>
      let r := expCall (env k) requestedSize
      if r.ret = 0 then
        some (EnvResult.osError r.err "ExpandEnvironmentVariables")
      else if requestedSize = r.ret then
        some (EnvResult.ok r.buf)
      else
        expLoop env (k+1) r.ret fuel

/-- `Environment::ExpandEnvironmentVariables` (`Environment.cpp` lines 9-33):
probe with a null buffer, fail on `0`, then run the retry loop; the final
`resize(requestedSize - 1)` trimming of the terminator is absorbed by the
terminator-free buffer model. -/
def ExpandEnvironmentVariables (env : Nat → OsState) (fuel : Nat) : Option EnvResult :=
  let r0 := expCall (env 0) 0
  if r0.ret = 0 then
    some (EnvResult.osError r0.err "ExpandEnvironmentVariables")
  else
    expLoop env 1 r0.ret fuel

/-- Retry loop of `GetEnvironmentVariableValue` (`Environment.cpp` lines
57-69): exits when the buffer size equals the reported size plus one; a zero
report is `nullopt` when the error is `ERROR_ENVVAR_NOT_FOUND`, otherwise a
thrown `system_error` whose operation string is, verbatim from the source,
"ExpandEnvironmentStringsW" (line 67). -/
def gevLoop (env : Nat → OsState) : Nat → Nat → Nat → Option EnvResult
  | _, _, 0 => none
  | k, requestedSize, fuel+1 =>
      let r := gevCall (env k) requestedSize
      if r.ret = 0 then
        if r.err = ERROR_ENVVAR_NOT_FOUND then
          some EnvResult.notFound
        else
          some (EnvResult.osError r.err "ExpandEnvironmentStringsW")
      else if requestedSize = r.ret + 1 then
        some (EnvResult.ok r.buf)
      else
        gevLoop env (k+1) r.ret fuel

/-- `Environment::GetEnvironmentVariableValue` (`Environment.cpp` lines
35-74): probe; `0` is `nullopt` on `ERROR_ENVVAR_NOT_FOUND` and an OS error
otherwise; a reported size of exactly `1` (the value is just the terminator,
i.e. the variable is set to the empty string) is `nullopt`; otherwise run the
retry loop. -/
def GetEnvironmentVariableValue (env : Nat → OsState) (fuel : Nat) : Option EnvResult :=
  let r0 := gevCall (env 0) 0
  if r0.ret = 0 then
    if r0.err = ERROR_ENVVAR_NOT_FOUND then
      some EnvResult.notFound
    else
      some (EnvResult.osError r0.err "GetEnvironmentVariableW")
  else if r0.ret = 1 then
    some EnvResult.notFound
  else
    gevLoop env 1 r0.ret fuel

/-- Retry loop of `GetCurrentDirectoryValue` (`Environment.cpp` lines 85-93):
same shape as `gevLoop`, but every zero report is an OS error under the name
"GetCurrentDirectory". -/
def gcdLoop (env : Nat → OsState) : Nat → Nat → Nat → Option EnvResult
  | _, _, 0 => none
  | k, requestedSize, fuel+1 =>
      let r := gevCall (env k) requestedSize
      if r.ret = 0 then
        some (EnvResult.osError r.err "GetCurrentDirectory")
      else if requestedSize = r.ret + 1 then
        some (EnvResult.ok r.buf)
      else
        gcdLoop env (k+1) r.ret fuel

/-- `Environment::GetCurrentDirectoryValue` (`Environment.cpp` lines 76-98). -/
def GetCurrentDirectoryValue (env : Nat → OsState) (fuel : Nat) : Option EnvResult :=
  let r0 := gevCall (env 0) 0
  if r0.ret = 0 then
    some (EnvResult.osError r0.err "GetCurrentDirectory")
  else
    gcdLoop env 1 r0.ret fuel

/-- Retry loop of `GetDllDirectoryValue` (`Environment.cpp` lines 119-129): a
zero report is an error only when the last error is not `ERROR_SUCCESS`;
otherwise the usual size-plus-one exit test runs (a zero report with buffer
size `1` exits returning the empty string). -/
def gddLoop (env : Nat → OsState) : Nat → Nat → Nat → Option EnvResult
  | _, _, 0 => none
  | k, requestedSize, fuel+1 =>
      let r := gddCall (env k) requestedSize
      if r.ret = 0 ∧ r.err ≠ ERROR_SUCCESS then
        some (EnvResult.osError r.err "GetDllDirectory")
      else if requestedSize = r.ret + 1 then
        some (EnvResult.ok r.buf)
      else
        gddLoop env (k+1) r.ret fuel

/-- `Environment::GetDllDirectoryValue` (`Environment.cpp` lines 100-134):
after `SetLastError(ERROR_SUCCESS)`, a zero-size probe with no signalled error
is a successful empty result; a zero-size probe with an error throws;
otherwise run the retry loop. -/
def GetDllDirectoryValue (env : Nat → OsState) (fuel : Nat) : Option EnvResult :=
  let r0 := gddCall (env 0) 0
  if r0.ret = 0 then
    if r0.err ≠ ERROR_SUCCESS then
      some (EnvResult.osError r0.err "GetDllDirectory")
    else
      some (EnvResult.ok "")
  else
    gddLoop env 1 r0.ret fuel

/-- Eventually-constant oracle built from a finite list of transient states
followed by the stable state `d`: by construction `envOf l d k = d` for every
`k ≥ l.length`. -/
def envOf (l : List OsState) (d : OsState) : Nat → OsState :=
  fun k => l.getD k d

/-!
Directory synchronizer.  The filesystem is modelled with paths as lists of
components.  The source tree (read-only during the walk, enumerated by
`std::filesystem::directory_iterator`) is an inductive tree of entries; the
destination side is a `World`: the set of existing directories plus an
association list from file paths to file content and last-write time, both
keyed by absolute component paths.  `CreateDirectory` and `CopyFile` are
external calls; whether they succeed is given by the oracles `okM` and `okC`
(keyed by the path being created / copied to).  `LOG_INFO` / `LOG_LAST_ERROR`
on the two branches after `CopyFile` are modelled as emitted log events. -/

/-- Content and last-write time of a file. -/
structure FileInfo where
  content : String
  mtime : Nat
deriving DecidableEq, Repr

mutual
/-- An entry of the source tree, as produced by `directory_iterator`: a
regular file (name, bytes, last-write time) or a subdirectory with its own
entries. -/
inductive Entry where
  | file (name : String) (content : String) (mtime : Nat)
  | dir (name : String) (children : EntryList)
/-- A list of source-tree entries, in enumeration order. -/
inductive EntryList where
  | nil
  | cons (e : Entry) (rest : EntryList)
end

/-- Builds an `EntryList` from a `List Entry` (concrete-tree convenience). -/
def toEntryList : List Entry → EntryList
  | [] => EntryList.nil
  | e :: rest => EntryList.cons e (toEntryList rest)

/-- Destination-side filesystem state. -/
structure World where
  dirs : List (List String)
  files : List (List String × FileInfo)
deriving DecidableEq, Repr

/-- Events of the per-file copy branch: `LOG_INFO(L"WOW")` on a successful
`CopyFile`, `LOG_LAST_ERROR()` on a failed one. -/
inductive LogEvent where
  | copied (d : List String)
  | copyFailed (d : List String)
deriving DecidableEq, Repr

/-- First file entry stored at path `q`, if any (newest insertion wins). -/
def findFile : List (List String × FileInfo) → List String → Option FileInfo
  | [], _ => none
  | (p, fi) :: rest, q => if q = p then some fi else findFile rest q

/-- Timestamp gate of `CopyDirTo` (`Environment.cpp` lines 194-202): the copy
is skipped exactly when the destination entry `d` exists and the source's
last-write time is less than or equal to the destination's. -/
def shouldSkip (w : World) (d : List String) (mtime : Nat) : Bool :=
  match findFile w.files d with
  | some fi => decide (mtime ≤ fi.mtime)
  | none => false

/-- `CopyFile(p, d, FALSE)` plus the logging of its result (`Environment.cpp`
lines 204-212): on success the destination file at `d` gets the source's bytes
and last-write time (overwriting any previous file at `d`); on failure the
state is unchanged and the failure is logged.  Either way the walk goes on. -/
def attemptCopy (okC : List String → Bool) (d : List String) (content : String)
    (mtime : Nat) (w : World) : World × List LogEvent :=
  if okC d then
    ({ w with files := (d, ⟨content, mtime⟩) :: w.files }, [LogEvent.copied d])
  else
    (w, [LogEvent.copyFailed d])

/-- Head of `CopyDirTo` (`Environment.cpp` lines 181-185): if the target
directory does not exist, call `CreateDirectory`; the call's return value is
discarded, so on failure the walk proceeds on an unchanged state. -/
def ensureDir (okM : List String → Bool) (t : List String) (w : World) : World :=
  if t ∈ w.dirs then w
  else if okM t then { w with dirs := t :: w.dirs } else w

mutual
/-- One iteration of the entry loop of `CopyDirTo` (`Environment.cpp` lines
187-218): a regular file is timestamp-gated and then copied with
`attemptCopy`; a subdirectory recurses via `CopyDirTo(p, target / name)`,
whose body (ensure the target exists, then walk the children) is inlined
here. -/
def copyEntry (okC okM : List String → Bool) (target : List String) : Entry → World → World × List LogEvent
  | Entry.file name content mtime, w =>
      if shouldSkip w (target ++ [name]) mtime then (w, [])
      else attemptCopy okC (target ++ [name]) content mtime w
  | Entry.dir name children, w =>
      copyEntries okC okM (target ++ [name]) children
        (ensureDir okM (target ++ [name]) w)
/-- The `for (auto& p : directory_iterator(source_folder))` loop of
`CopyDirTo`, threading the destination state left to right and concatenating
the emitted log events. -/
def copyEntries (okC okM : List String → Bool) (target : List String) : EntryList → World → World × List LogEvent
  | EntryList.nil, w => (w, [])
  | EntryList.cons e rest, w =>
      let step := copyEntry okC okM target e w
      let next := copyEntries okC okM target rest step.1
      (next.1, step.2 ++ next.2)
end

/-- `Environment::CopyDirTo` (`Environment.cpp` lines 179-219): ensure the
target directory exists (creation result ignored), then walk the source
entries. -/
def CopyDirTo (okC okM : List String → Bool) (src : EntryList)
    (target : List String) (w : World) : World × List LogEvent :=
  copyEntries okC okM target src (ensureDir okM target w)

/-- HRESULT `S_OK`. -/
def S_OK : Int := 0

/-- HRESULT `E_FAIL` (`0x80004005` as a signed 32-bit value). -/
def E_FAIL : Int := -2147467259

/-- Existence test used by the clean step (`std::filesystem::exists`). -/
def pathExists (p : List String) (w : World) : Bool :=
  w.dirs.contains p || (findFile w.files p).isSome

/-- `std::filesystem::remove_all(destination)`: every directory and file at or
under `destination` is removed. -/
def removeAll (root : List String) (w : World) : World :=
  { dirs := w.dirs.filter (fun q => !(root.isPrefixOf q)),
    files := w.files.filter (fun e => !(root.isPrefixOf e.1)) }

/-- Guard test of `CopyToDirectory`: `tempPath.find(source) == 0` holds
exactly when the destination string begins with the source string, compared
character by character. -/
def strBeginsWith (source dest : String) : Bool :=
  source.data.isPrefixOf dest.data

/-- `Environment::CopyToDirectory` (`Environment.cpp` lines 155-176).
`destStr` is `destination.wstring()` and `source` the source string, so the
guard `tempPath.find(source) == 0` is "the destination string begins with the
source string"; `destination` is the same destination as a component path, the
root of the mirror.  On a guard hit, `E_FAIL` with no state change and no
events; otherwise optionally clean, run `CopyDirTo`, and return `S_OK`. -/
def CopyToDirectory (okC okM : List String → Bool) (destination : List String)
    (destStr source : String) (cleanDest : Bool) (src : EntryList)
    (w : World) : Int × World × List LogEvent :=
  if strBeginsWith source destStr then
    (E_FAIL, w, [])
  else
    let w1 := if cleanDest && pathExists destination w then removeAll destination w else w
    let r := CopyDirTo okC okM src destination w1
    (S_OK, r.1, r.2)

mutual
/-- Paths of the regular files of one source entry, relative to `target`: the
file paths the walk may write to. -/
def entryFilePaths (target : List String) : Entry → List (List String)
  | Entry.file name _ _ => [target ++ [name]]
  | Entry.dir name children => listFilePaths (target ++ [name]) children
/-- Paths of the regular files of a source entry list, relative to `target`. -/
def listFilePaths (target : List String) : EntryList → List (List String)
  | EntryList.nil => []
  | EntryList.cons e rest => entryFilePaths target e ++ listFilePaths target rest
end

mutual
/-- Paths of the subdirectories of one source entry, relative to `target`. -/
def entryDirPaths (target : List String) : Entry → List (List String)
  | Entry.file _ _ _ => []
  | Entry.dir name children =>
      (target ++ [name]) :: listDirPaths (target ++ [name]) children
/-- Paths of the subdirectories of a source entry list, relative to
`target`. -/
def listDirPaths (target : List String) : EntryList → List (List String)
  | EntryList.nil => []
  | EntryList.cons e rest => entryDirPaths target e ++ listDirPaths target rest
end

/-- Oracle of always-succeeding external calls. -/
def allOk : List String → Bool := fun _ => true

/-! Theorems.  The claim ids refer to the natural-language specification of
this repository. -/

/-- C9: there are source and destination strings where the destination is
neither equal to the source nor inside it as a path — here source `C:\app`
and its sibling `C:\apple`, which merely extends the source's name — yet
`CopyToDirectory` reports the guard violation `E_FAIL` and copies nothing,
because the guard is a literal string-prefix test. -/
theorem c9_sibling_blocked :
    CopyToDirectory allOk allOk ["C:", "apple"] "C:\\apple" "C:\\app" false
      (toEntryList [Entry.file "f" "x" 1]) ⟨[], []⟩ =
      (E_FAIL, ⟨[], []⟩, []) ∧
    "C:\\apple" ≠ "C:\\app" ∧
    strBeginsWith ("C:\\app" ++ "\\") "C:\\apple" = false := by
  refine ⟨?_, by decide, by decide⟩
  simp [CopyToDirectory, show strBeginsWith "C:\\app" "C:\\apple" = true by decide]

/-- C2: if the destination string begins with the source string,
`CopyToDirectory` returns `E_FAIL` with the destination state unchanged and no
events (no clean, no directory creation, no copy); if it does not, the guard
does not fire and the call returns `S_OK`. -/
theorem c2_guard_atomic (okC okM : List String → Bool) (destination : List String)
    (destStr source : String) (cleanDest : Bool) (src : EntryList) (w : World) :
    (strBeginsWith source destStr = true →
      CopyToDirectory okC okM destination destStr source cleanDest src w =
        (E_FAIL, w, [])) ∧
    (strBeginsWith source destStr = false →
      (CopyToDirectory okC okM destination destStr source cleanDest src w).1 = S_OK) := by
  constructor <;> intro h <;> simp [CopyToDirectory, h]

/-- Witness for C2 at concrete inputs: a nested destination is refused with no
mutation; an unrelated destination passes the guard and the call succeeds. -/
theorem c2_guard_atomic_witness :
    strBeginsWith "C:\\app" "C:\\app\\shadow" = true ∧
    CopyToDirectory allOk allOk ["C:", "app", "shadow"] "C:\\app\\shadow" "C:\\app"
      true (toEntryList [Entry.file "f" "x" 1]) ⟨[], []⟩ = (E_FAIL, ⟨[], []⟩, []) ∧
    strBeginsWith "D:\\src" "C:\\dst" = false ∧
    (CopyToDirectory allOk allOk ["C:", "dst"] "C:\\dst" "D:\\src"
      false (toEntryList [Entry.file "f" "x" 1]) ⟨[], []⟩).1 = S_OK := by
  refine ⟨by decide, ?_, by decide, ?_⟩
  · exact (c2_guard_atomic allOk allOk ["C:", "app", "shadow"] "C:\\app\\shadow"
      "C:\\app" true (toEntryList [Entry.file "f" "x" 1]) ⟨[], []⟩).1 (by decide)
  · exact (c2_guard_atomic allOk allOk ["C:", "dst"] "C:\\dst" "D:\\src"
      false (toEntryList [Entry.file "f" "x" 1]) ⟨[], []⟩).2 (by decide)

/-- C10: when the target directory does not exist and `CreateDirectory` fails,
the failure is ignored: the walk still enumerates the source entries on the
unchanged state (the return type of `CopyDirTo` carries no error channel, so
no creation failure can reach the caller) and `CopyToDirectory` still returns
`S_OK` whenever the guard passes. -/
theorem c10_mkdir_failure_ignored (okC okM : List String → Bool) (src : EntryList)
    (target destination : List String) (destStr source : String) (cleanDest : Bool)
    (w : World) (hnot : target ∉ w.dirs) (hfail : okM target = false) :
    CopyDirTo okC okM src target w = copyEntries okC okM target src w ∧
    (strBeginsWith source destStr = false →
      (CopyToDirectory okC okM destination destStr source cleanDest src w).1 = S_OK) := by
  constructor
  · simp [CopyDirTo, ensureDir, hnot, hfail]
  · intro h
    simp [CopyToDirectory, h]

/-- Witness for C10: with an always-failing `CreateDirectory` oracle the walk
still runs and still copies the file, and the overall call returns `S_OK`. -/
theorem c10_mkdir_failure_ignored_witness :
    (["dst"] ∉ (⟨[], []⟩ : World).dirs) ∧
    (fun (_ : List String) => false) ["dst"] = false ∧
    CopyDirTo allOk (fun _ => false) (toEntryList [Entry.file "f" "x" 1]) ["dst"] ⟨[], []⟩ =
      copyEntries allOk (fun _ => false) ["dst"] (toEntryList [Entry.file "f" "x" 1]) ⟨[], []⟩ ∧
    (CopyToDirectory allOk (fun _ => false) ["dst"] "C:\\dst" "D:\\src" false
      (toEntryList [Entry.file "f" "x" 1]) ⟨[], []⟩).1 = S_OK := by
  have h := c10_mkdir_failure_ignored allOk (fun _ => false)
    (toEntryList [Entry.file "f" "x" 1]) ["dst"] ["dst"] "C:\\dst" "D:\\src" false
    ⟨[], []⟩ (by decide) rfl
  exact ⟨by decide, rfl, h.1, h.2 (by decide)⟩

/-- C1 as stated is false on the code: the claim skips when the destination's
timestamp is less than or equal to the source's, but `CopyDirTo` skips on the
reverse comparison (`originalFileTime <= destFileTime`).  Here the destination
file exists with timestamp `0 ≤ 5`, so the claim predicts a skip with the
destination unchanged, yet the code overwrites it. -/
theorem c1_counterexample :
    findFile ((copyEntry allOk allOk [] (Entry.file "f" "new" 5)
        ⟨[], [(["f"], ⟨"old", 0⟩)]⟩).1).files ["f"] = some ⟨"new", 5⟩ ∧
    findFile [(["f"], FileInfo.mk "old" 0)] ["f"] = some ⟨"old", 0⟩ ∧
    (0 : Nat) ≤ 5 ∧
    FileInfo.mk "new" 5 ≠ FileInfo.mk "old" 0 := by decide

/-- C1, amended: in the mirror step, a regular file is skipped (state
unchanged, nothing logged) exactly when the destination file `d` exists and
the SOURCE file's timestamp is less than or equal to the destination's (equal
timestamps skip); otherwise — destination strictly older, or absent — the
file's bytes and timestamp are copied from the source onto `d`, overwriting
any existing file (shown here for a succeeding `CopyFile`). -/
theorem c1_skip_or_copy (okC okM : List String → Bool) (target : List String)
    (name content : String) (mtime : Nat) (w : World) :
    (∀ fi, findFile w.files (target ++ [name]) = some fi → mtime ≤ fi.mtime →
      copyEntry okC okM target (Entry.file name content mtime) w = (w, [])) ∧
    (∀ fi, findFile w.files (target ++ [name]) = some fi → fi.mtime < mtime →
      okC (target ++ [name]) = true →
      copyEntry okC okM target (Entry.file name content mtime) w =
        ({ w with files := (target ++ [name], ⟨content, mtime⟩) :: w.files },
          [LogEvent.copied (target ++ [name])])) ∧
    (findFile w.files (target ++ [name]) = none →
      okC (target ++ [name]) = true →
      copyEntry okC okM target (Entry.file name content mtime) w =
        ({ w with files := (target ++ [name], ⟨content, mtime⟩) :: w.files },
          [LogEvent.copied (target ++ [name])])) := by
  refine ⟨fun fi hfi hle => ?_, fun fi hfi hlt hok => ?_, fun hnone hok => ?_⟩
  · simp [copyEntry, shouldSkip, hfi, hle]
  · have : ¬ (mtime ≤ fi.mtime) := by omega
    simp [copyEntry, shouldSkip, hfi, this, attemptCopy, hok]
  · simp [copyEntry, shouldSkip, hnone, attemptCopy, hok]

/-- Witness for C1 (amended) at concrete inputs: an up-to-date destination
(equal timestamps) is skipped; a stale destination is overwritten; a missing
destination is copied. -/
theorem c1_skip_or_copy_witness :
    copyEntry allOk allOk [] (Entry.file "f" "new" 5) ⟨[], [(["f"], ⟨"old", 5⟩)]⟩ =
      (⟨[], [(["f"], ⟨"old", 5⟩)]⟩, []) ∧
    copyEntry allOk allOk [] (Entry.file "f" "new" 5) ⟨[], [(["f"], ⟨"old", 3⟩)]⟩ =
      (⟨[], [(["f"], ⟨"new", 5⟩), (["f"], ⟨"old", 3⟩)]⟩, [LogEvent.copied ["f"]]) ∧
    copyEntry allOk allOk [] (Entry.file "f" "new" 5) ⟨[], []⟩ =
      (⟨[], [(["f"], ⟨"new", 5⟩)]⟩, [LogEvent.copied ["f"]]) := by
  refine ⟨?_, ?_, ?_⟩
  · exact (c1_skip_or_copy allOk allOk [] "f" "new" 5 ⟨[], [(["f"], ⟨"old", 5⟩)]⟩).1
      ⟨"old", 5⟩ (by decide) (by decide)
  · exact (c1_skip_or_copy allOk allOk [] "f" "new" 5 ⟨[], [(["f"], ⟨"old", 3⟩)]⟩).2.1
      ⟨"old", 3⟩ (by decide) (by decide) rfl
  · exact (c1_skip_or_copy allOk allOk [] "f" "new" 5 ⟨[], []⟩).2.2 rfl rfl

/-- C7: a per-file `CopyFile` failure only emits a log event — the destination
state is unchanged and the walk continues with the remaining entries exactly
as it would have without the failed file; and whenever the guard passes,
`CopyToDirectory` still returns `S_OK`, whatever the copy oracle did. -/
theorem c7_best_effort (okC okM : List String → Bool) (target destination : List String)
    (name content destStr source : String) (mtime : Nat) (cleanDest : Bool)
    (rest : EntryList) (src : EntryList) (w : World)
    (hfail : okC (target ++ [name]) = false)
    (hskip : shouldSkip w (target ++ [name]) mtime = false) :
    copyEntries okC okM target (EntryList.cons (Entry.file name content mtime) rest) w =
      ((copyEntries okC okM target rest w).1,
        LogEvent.copyFailed (target ++ [name]) :: (copyEntries okC okM target rest w).2) ∧
    (strBeginsWith source destStr = false →
      (CopyToDirectory okC okM destination destStr source cleanDest src w).1 = S_OK) := by
  constructor
  · simp [copyEntries, copyEntry, hskip, attemptCopy, hfail]
  · intro h
    simp [CopyToDirectory, h]

/-- Witness for C7: with a copy oracle failing exactly on `dst/bad`, the walk
logs the failure, still copies the sibling `dst/good`, and the overall call
returns `S_OK`. -/
theorem c7_best_effort_witness :
    copyEntries (fun d => decide (d ≠ ["dst", "bad"])) allOk ["dst"]
      (EntryList.cons (Entry.file "bad" "x" 1)
        (toEntryList [Entry.file "good" "y" 2])) ⟨[], []⟩ =
      ((copyEntries (fun d => decide (d ≠ ["dst", "bad"])) allOk ["dst"]
          (toEntryList [Entry.file "good" "y" 2]) ⟨[], []⟩).1,
        LogEvent.copyFailed ["dst", "bad"] ::
          (copyEntries (fun d => decide (d ≠ ["dst", "bad"])) allOk ["dst"]
            (toEntryList [Entry.file "good" "y" 2]) ⟨[], []⟩).2) ∧
    (CopyToDirectory (fun d => decide (d ≠ ["dst", "bad"])) allOk ["dst"] "C:\\dst"
      "D:\\src" false (toEntryList [Entry.file "bad" "x" 1, Entry.file "good" "y" 2])
      ⟨[], []⟩).1 = S_OK := by
  have h := c7_best_effort (fun d => decide (d ≠ ["dst", "bad"])) allOk ["dst"] ["dst"]
    "bad" "x" "C:\\dst" "D:\\src" 1 false (toEntryList [Entry.file "good" "y" 2])
    (toEntryList [Entry.file "bad" "x" 1, Entry.file "good" "y" 2]) ⟨[], []⟩
    (by decide) (by decide)
  exact ⟨h.1, h.2 (by decide)⟩

/-- Helper: whenever the `GetEnvironmentVariableValue` retry loop returns a
string, the string is non-empty: the loop can only exit on a fill call whose
reported size is non-zero and whose buffer held the whole value. -/
theorem gevLoop_ok_nonempty (env : Nat → OsState) :
    ∀ fuel k rs s, gevLoop env k rs fuel = some (EnvResult.ok s) → s ≠ "" := by
  intro fuel
  induction fuel with
  | zero => intro k rs s h; simp [gevLoop] at h
  | succ f ih =>
      intro k rs s h
      simp only [gevLoop] at h
      cases he : env k with
      | missing => rw [he] at h; simp [gevCall, ERROR_ENVVAR_NOT_FOUND] at h
      | failed c =>
          rw [he] at h
          simp [gevCall] at h
          split_ifs at h <;> simp_all
      | value v =>
          rw [he] at h
          by_cases hfit : v.length + 1 ≤ rs
          · rw [show gevCall (OsState.value v) rs = ⟨v.length, ERROR_SUCCESS, v⟩ from
              by simp [gevCall, hfit]] at h
            by_cases hz : v.length = 0
            · simp [hz, ERROR_SUCCESS, ERROR_ENVVAR_NOT_FOUND] at h
            · by_cases hex : rs = v.length + 1
              · simp [hz, hex] at h
                intro h0
                rw [h0] at h
                rw [h] at hz
                simp at hz
              · simp [hz, hex] at h
                exact ih _ _ _ h
          · rw [show gevCall (OsState.value v) rs = ⟨v.length + 1, ERROR_SUCCESS, ""⟩ from
              by simp [gevCall, hfit]] at h
            have hex : ¬ (rs = v.length + 1 + 1) := by omega
            simp [hex] at h
            exact ih _ _ _ h

/-- C3: `GetEnvironmentVariableValue` never returns the empty string: a probe
reporting "not found" yields `nullopt`; a probe reporting required size
exactly `1` (variable set to the empty value) also yields `nullopt`; any other
probe failure is raised as an OS error; and every string the operation does
return is non-empty. -/
theorem c3_never_empty_string (env : Nat → OsState) (fuel : Nat) :
    (env 0 = OsState.missing →
      GetEnvironmentVariableValue env fuel = some EnvResult.notFound) ∧
    (env 0 = OsState.value "" →
      GetEnvironmentVariableValue env fuel = some EnvResult.notFound) ∧
    (∀ c, c ≠ ERROR_ENVVAR_NOT_FOUND → env 0 = OsState.failed c →
      GetEnvironmentVariableValue env fuel =
        some (EnvResult.osError c "GetEnvironmentVariableW")) ∧
    (∀ s, GetEnvironmentVariableValue env fuel = some (EnvResult.ok s) → s ≠ "") := by
  refine ⟨fun h => ?_, fun h => ?_, fun c hc h => ?_, fun s h => ?_⟩
  · simp [GetEnvironmentVariableValue, gevCall, h]
  · simp [GetEnvironmentVariableValue, gevCall, h]
  · simp [GetEnvironmentVariableValue, gevCall, h, hc]
  · cases he : env 0 with
    | missing =>
        simp [GetEnvironmentVariableValue, gevCall, he, ERROR_ENVVAR_NOT_FOUND] at h
    | failed c =>
        simp [GetEnvironmentVariableValue, gevCall, he] at h
        split_ifs at h <;> simp_all
    | value v =>
        have h0 : ¬ (v.length + 1 ≤ 0) := by omega
        by_cases h1 : v.length + 1 = 1
        · simp [GetEnvironmentVariableValue, gevCall, he, h0, h1] at h
        · simp [GetEnvironmentVariableValue, gevCall, he, h0, h1] at h
          exact gevLoop_ok_nonempty env fuel 1 (v.length + 1) s h

/-- Witness for C3: a missing variable, a variable set to the empty string, a
failing probe, and a present variable, each at a concrete oracle. -/
theorem c3_never_empty_string_witness :
    GetEnvironmentVariableValue (envOf [] OsState.missing) 3 = some EnvResult.notFound ∧
    GetEnvironmentVariableValue (envOf [] (OsState.value "")) 3 = some EnvResult.notFound ∧
    GetEnvironmentVariableValue (envOf [] (OsState.failed 5)) 3 =
      some (EnvResult.osError 5 "GetEnvironmentVariableW") ∧
    "ab" ≠ "" := by
  refine ⟨?_, ?_, ?_, ?_⟩
  · exact (c3_never_empty_string (envOf [] OsState.missing) 3).1 rfl
  · exact (c3_never_empty_string (envOf [] (OsState.value "")) 3).2.1 rfl
  · exact (c3_never_empty_string (envOf [] (OsState.failed 5)) 3).2.2.1 5 (by decide) rfl
  · exact (c3_never_empty_string (envOf [] (OsState.value "ab")) 3).2.2.2 "ab" (by decide)

/-- C6: for `GetDllDirectoryValue`, a zero-size probe with no signalled error
code succeeds with the empty string; a zero-size probe with a signalled error
raises that OS error; and inside the retry loop a zero-size fill with no
signalled error is likewise success, never failure. -/
theorem c6_dll_zero_is_success (env : Nat → OsState) (fuel : Nat) :
    (env 0 = OsState.missing → GetDllDirectoryValue env fuel = some (EnvResult.ok "")) ∧
    (∀ c, c ≠ ERROR_SUCCESS → env 0 = OsState.failed c →
      GetDllDirectoryValue env fuel = some (EnvResult.osError c "GetDllDirectory")) ∧
    (∀ k f, env k = OsState.missing →
      gddLoop env k 1 (f + 1) = some (EnvResult.ok "")) := by
  refine ⟨fun h => ?_, fun c hc h => ?_, fun k f h => ?_⟩
  · simp [GetDllDirectoryValue, gddCall, h, ERROR_SUCCESS]
  · simp [GetDllDirectoryValue, gddCall, h, hc]
  · simp [gddLoop, gddCall, h, ERROR_SUCCESS]

/-- Witness for C6: no DLL directory set yields the empty string (probe and
loop), and a failing facility yields the OS error. -/
theorem c6_dll_zero_is_success_witness :
    GetDllDirectoryValue (envOf [] OsState.missing) 3 = some (EnvResult.ok "") ∧
    GetDllDirectoryValue (envOf [] (OsState.failed 5)) 3 =
      some (EnvResult.osError 5 "GetDllDirectory") ∧
    gddLoop (envOf [] OsState.missing) 0 1 3 = some (EnvResult.ok "") := by
  refine ⟨?_, ?_, ?_⟩
  · exact (c6_dll_zero_is_success (envOf [] OsState.missing) 3).1 rfl
  · exact (c6_dll_zero_is_success (envOf [] (OsState.failed 5)) 3).2.1 5 (by decide) rfl
  · exact (c6_dll_zero_is_success (envOf [] OsState.missing) 3).2.2 0 2 rfl

/-- C5 names the bug: when the fill call inside `GetEnvironmentVariableValue`
fails (probe reported size 3, then the fill fails with code 5), the thrown
error's operation string is `"ExpandEnvironmentStringsW"` — the name of a
different facility — not `"GetEnvironmentVariableW"`, the call that actually
failed; by contrast `GetCurrentDirectoryValue` reports its own fill failures
under the correct name. -/
theorem c5_fill_failure_mislabeled :
    GetEnvironmentVariableValue
        (envOf [OsState.value "ab", OsState.failed 5] (OsState.failed 5)) 3 =
      some (EnvResult.osError 5 "ExpandEnvironmentStringsW") ∧
    GetCurrentDirectoryValue
        (envOf [OsState.value "ab", OsState.failed 5] (OsState.failed 5)) 3 =
      some (EnvResult.osError 5 "GetCurrentDirectory") ∧
    "ExpandEnvironmentStringsW" ≠ "GetEnvironmentVariableW" := by decide

/-- Helper: a string of length zero is the empty string. -/
theorem string_eq_empty_of_length_eq_zero (v : String) (h : v.length = 0) : v = "" := by
  cases v with
  | mk l =>
      simp [String.length] at h
      subst h
      rfl

/-- Helper: one iteration of the expansion retry loop against a present value
`v`: exit with `v` when the buffer size is exactly `v.length + 1`, otherwise
retry with the newly reported size. -/
theorem expLoop_succ_value (env : Nat → OsState) (k rs f : Nat) (v : String)
    (he : env k = OsState.value v) :
    expLoop env k rs (f + 1) =
      if rs = v.length + 1 then some (EnvResult.ok v)
      else expLoop env (k + 1) (v.length + 1) f := by
  simp only [expLoop]
  rw [he]
  by_cases hfit : v.length + 1 ≤ rs
  · simp [expCall, hfit]
  · have hne : ¬ (rs = v.length + 1) := by omega
    simp [expCall, hfit, hne]

/-- Helper: once the oracle has stabilized, the expansion retry loop finishes
within two more iterations. -/
theorem expLoop_stable (env : Nat → OsState) (N : Nat) (v : String)
    (hstab : ∀ k, N ≤ k → env k = OsState.value v) :
    ∀ k rs fuel, N ≤ k → 2 ≤ fuel → (expLoop env k rs fuel).isSome := by
  intro k rs fuel hk hf
  obtain ⟨f, rfl⟩ : ∃ f, fuel = f + 2 := ⟨fuel - 2, by omega⟩
  rw [expLoop_succ_value env k rs (f + 1) v (hstab k hk)]
  by_cases hex : rs = v.length + 1
  · simp [hex]
  · simp only [hex, if_false]
    rw [expLoop_succ_value env (k + 1) (v.length + 1) f v (hstab (k + 1) (by omega))]
    simp

/-- Helper: the expansion retry loop terminates for every oracle that
stabilizes, transient states included. -/
theorem expLoop_term (env : Nat → OsState) (N : Nat) (v : String)
    (hstab : ∀ k, N ≤ k → env k = OsState.value v) :
    ∀ d k rs fuel, N ≤ k + d → d + 2 ≤ fuel → (expLoop env k rs fuel).isSome := by
  intro d
  induction d with
  | zero =>
      intro k rs fuel h hf
      exact expLoop_stable env N v hstab k rs fuel (by omega) (by omega)
  | succ d ih =>
      intro k rs fuel h hf
      by_cases hk : N ≤ k
      · exact expLoop_stable env N v hstab k rs fuel hk (by omega)
      · obtain ⟨f, rfl⟩ : ∃ f, fuel = f + 1 := ⟨fuel - 1, by omega⟩
        cases he : env k with
        | missing => simp [expLoop, expCall, he]
        | failed c => simp [expLoop, expCall, he]
        | value w =>
            rw [expLoop_succ_value env k rs f w he]
            by_cases hex : rs = w.length + 1
            · simp [hex]
            · simp only [hex, if_false]
              exact ih (k + 1) (w.length + 1) f (by omega) (by omega)

/-- Helper: `ExpandEnvironmentVariables` terminates for every oracle that
stabilizes after `N` calls, given fuel `N + 2`. -/
theorem exp_term_total (env : Nat → OsState) (N : Nat) (v : String)
    (hstab : ∀ k, N ≤ k → env k = OsState.value v) :
    ∀ fuel, N + 2 ≤ fuel → (ExpandEnvironmentVariables env fuel).isSome := by
  intro fuel hf
  simp only [ExpandEnvironmentVariables]
  cases he : env 0 with
  | missing => simp [expCall, he]
  | failed c => simp [expCall, he]
  | value w =>
      rw [show expCall (OsState.value w) 0 = ⟨w.length + 1, ERROR_SUCCESS, String.take w 0⟩
        from by simp [expCall]]
      simp only []
      have hne : ¬ (w.length + 1 = 0) := by omega
      simp only [hne, if_false]
      exact expLoop_term env N v hstab N 1 (w.length + 1) fuel (by omega) (by omega)

/-- Helper: when the oracle is the constant value `v`, expansion returns
exactly `v` with any positive fuel. -/
theorem exp_exact (env : Nat → OsState) (v : String)
    (hall : ∀ k, env k = OsState.value v) :
    ∀ fuel, 1 ≤ fuel → ExpandEnvironmentVariables env fuel = some (EnvResult.ok v) := by
  intro fuel hf
  obtain ⟨f, rfl⟩ : ∃ f, fuel = f + 1 := ⟨fuel - 1, by omega⟩
  simp only [ExpandEnvironmentVariables]
  rw [show expCall (env 0) 0 = ⟨v.length + 1, ERROR_SUCCESS, String.take v 0⟩
    from by rw [hall 0]; simp [expCall]]
  have hne : ¬ (v.length + 1 = 0) := by omega
  simp only [hne, if_false]
  rw [expLoop_succ_value env 1 (v.length + 1) f v (hall 1)]
  simp

/-- Helper: every string the expansion retry loop returns is a value the
oracle actually held at some call — complete, not a truncated prefix. -/
theorem expLoop_ok_src (env : Nat → OsState) :
    ∀ fuel k rs s, expLoop env k rs fuel = some (EnvResult.ok s) →
      ∃ j, env j = OsState.value s := by
  intro fuel
  induction fuel with
  | zero => intro k rs s h; simp [expLoop] at h
  | succ f ih =>
      intro k rs s h
      simp only [expLoop] at h
      cases he : env k with
      | missing => rw [he] at h; simp [expCall] at h
      | failed c => rw [he] at h; simp [expCall] at h
      | value w =>
          rw [he] at h
          by_cases hfit : w.length + 1 ≤ rs
          · rw [show expCall (OsState.value w) rs = ⟨w.length + 1, ERROR_SUCCESS, w⟩
              from by simp [expCall, hfit]] at h
            by_cases hex : rs = w.length + 1
            · simp [hex] at h
              exact ⟨k, by rw [he, h]⟩
            · simp [hex] at h
              exact ih _ _ _ h
          · rw [show expCall (OsState.value w) rs =
                ⟨w.length + 1, ERROR_SUCCESS, String.take w rs⟩
              from by simp [expCall, hfit]] at h
            have hex : ¬ (rs = w.length + 1) := by omega
            simp [hex] at h
            exact ih _ _ _ h

/-- Helper: lifts `expLoop_ok_src` through the probe call. -/
theorem exp_ok_src (env : Nat → OsState) (fuel : Nat) (s : String)
    (h : ExpandEnvironmentVariables env fuel = some (EnvResult.ok s)) :
    ∃ j, env j = OsState.value s := by
  simp only [ExpandEnvironmentVariables] at h
  cases he : env 0 with
  | missing => rw [he] at h; simp [expCall] at h
  | failed c => rw [he] at h; simp [expCall] at h
  | value w =>
      rw [show expCall (env 0) 0 = ⟨w.length + 1, ERROR_SUCCESS, String.take w 0⟩
        from by rw [he]; simp [expCall]] at h
      have hne : ¬ (w.length + 1 = 0) := by omega
      simp only [hne, if_false] at h
      exact expLoop_ok_src env fuel 1 (w.length + 1) s h

/-- Helper: one iteration of the `GetEnvironmentVariableValue` retry loop
against a present non-empty value `v`: exit with `v` when the buffer holds
exactly `v.length + 1` characters; retry with the reported size otherwise
(`v.length` after an over-large fit, `v.length + 1` after a too-small
buffer). -/
theorem gevLoop_succ_value (env : Nat → OsState) (k rs f : Nat) (v : String)
    (he : env k = OsState.value v) (hv : v.length ≠ 0) :
    gevLoop env k rs (f + 1) =
      if v.length + 1 ≤ rs then
        (if rs = v.length + 1 then some (EnvResult.ok v)
         else gevLoop env (k + 1) v.length f)
      else gevLoop env (k + 1) (v.length + 1) f := by
  simp only [gevLoop]
  rw [he]
  by_cases hfit : v.length + 1 ≤ rs
  · rw [show gevCall (OsState.value v) rs = ⟨v.length, ERROR_SUCCESS, v⟩
      from by simp [gevCall, hfit]]
    simp [hfit, hv]
  · rw [show gevCall (OsState.value v) rs = ⟨v.length + 1, ERROR_SUCCESS, ""⟩
      from by simp [gevCall, hfit]]
    have hex : ¬ (rs = v.length + 1 + 1) := by omega
    simp [hfit, hex]

/-- Helper: once the oracle has stabilized, the `GetEnvironmentVariableValue`
retry loop finishes within three more iterations (an empty stable value makes
the fill report zero, which exits through the error branch). -/
theorem gevLoop_stable (env : Nat → OsState) (N : Nat) (v : String)
    (hstab : ∀ k, N ≤ k → env k = OsState.value v) :
    ∀ k rs fuel, N ≤ k → 1 ≤ rs → 3 ≤ fuel → (gevLoop env k rs fuel).isSome := by
  intro k rs fuel hk hrs hf
  obtain ⟨f, rfl⟩ : ∃ f, fuel = f + 3 := ⟨fuel - 3, by omega⟩
  by_cases hv : v.length = 0
  · have hfit : v.length + 1 ≤ rs := by omega
    simp only [gevLoop]
    rw [hstab k hk]
    rw [show gevCall (OsState.value v) rs = ⟨v.length, ERROR_SUCCESS, v⟩
      from by simp [gevCall, hfit]]
    simp [hv, ERROR_SUCCESS, ERROR_ENVVAR_NOT_FOUND]
  · rw [show f + 3 = (f + 2) + 1 from rfl,
      gevLoop_succ_value env k rs (f + 2) v (hstab k hk) hv]
    by_cases hfit : v.length + 1 ≤ rs
    · by_cases hex : rs = v.length + 1
      · simp [hfit, hex]
      · simp only [hfit, if_true, hex, if_false]
        rw [show f + 2 = (f + 1) + 1 from rfl,
          gevLoop_succ_value env (k + 1) v.length (f + 1) v (hstab (k + 1) (by omega)) hv]
        have hnfit : ¬ (v.length + 1 ≤ v.length) := by omega
        simp only [hnfit, if_false]
        rw [gevLoop_succ_value env (k + 2) (v.length + 1) f v (hstab (k + 2) (by omega)) hv]
        simp
    · simp only [hfit, if_false]
      rw [show f + 2 = (f + 1) + 1 from rfl,
        gevLoop_succ_value env (k + 1) (v.length + 1) (f + 1) v (hstab (k + 1) (by omega)) hv]
      simp

/-- Helper: the `GetEnvironmentVariableValue` retry loop terminates for every
oracle that stabilizes, transient states included. -/
theorem gevLoop_term (env : Nat → OsState) (N : Nat) (v : String)
    (hstab : ∀ k, N ≤ k → env k = OsState.value v) :
    ∀ d k rs fuel, N ≤ k + d → 1 ≤ rs → d + 3 ≤ fuel → (gevLoop env k rs fuel).isSome := by
  intro d
  induction d with
  | zero =>
      intro k rs fuel h h1 hf
      exact gevLoop_stable env N v hstab k rs fuel (by omega) h1 (by omega)
  | succ d ih =>
      intro k rs fuel h h1 hf
      by_cases hk : N ≤ k
      · exact gevLoop_stable env N v hstab k rs fuel hk h1 (by omega)
      · obtain ⟨f, rfl⟩ : ∃ f, fuel = f + 1 := ⟨fuel - 1, by omega⟩
        cases he : env k with
        | missing => simp [gevLoop, gevCall, he, ERROR_ENVVAR_NOT_FOUND]
        | failed c =>
            simp only [gevLoop]
            rw [he]
            simp only [gevCall]
            split_ifs <;> simp
        | value w =>
            by_cases hw : w.length = 0
            · have hfit : w.length + 1 ≤ rs := by omega
              simp only [gevLoop]
              rw [he]
              rw [show gevCall (OsState.value w) rs = ⟨w.length, ERROR_SUCCESS, w⟩
                from by simp [gevCall, hfit]]
              simp [hw, ERROR_SUCCESS, ERROR_ENVVAR_NOT_FOUND]
            · rw [gevLoop_succ_value env k rs f w he hw]
              by_cases hfit : w.length + 1 ≤ rs
              · by_cases hex : rs = w.length + 1
                · simp [hfit, hex]
                · simp only [hfit, if_true, hex, if_false]
                  exact ih (k + 1) w.length f (by omega) (by omega) (by omega)
              · simp only [hfit, if_false]
                exact ih (k + 1) (w.length + 1) f (by omega) (by omega) (by omega)

/-- Helper: `GetEnvironmentVariableValue` terminates for every oracle that
stabilizes after `N` calls, given fuel `N + 3`. -/
theorem gev_term_total (env : Nat → OsState) (N : Nat) (v : String)
    (hstab : ∀ k, N ≤ k → env k = OsState.value v) :
    ∀ fuel, N + 3 ≤ fuel → (GetEnvironmentVariableValue env fuel).isSome := by
  intro fuel hf
  simp only [GetEnvironmentVariableValue]
  cases he : env 0 with
  | missing => simp [gevCall, ERROR_ENVVAR_NOT_FOUND]
  | failed c =>
      simp only [gevCall]
      split_ifs <;> simp
  | value w =>
      rw [show gevCall (OsState.value w) 0 = ⟨w.length + 1, ERROR_SUCCESS, ""⟩
        from by simp [gevCall]]
      have hne : ¬ (w.length + 1 = 0) := by omega
      by_cases h1 : w.length + 1 = 1
      · simp [hne, h1]
      · simp only [hne, if_false, h1]
        exact gevLoop_term env N v hstab N 1 (w.length + 1) fuel (by omega) (by omega) (by omega)

/-- Helper: when the oracle is the constant non-empty value `v`,
`GetEnvironmentVariableValue` returns exactly `v` with any positive fuel. -/
theorem gev_exact (env : Nat → OsState) (v : String) (hv : v ≠ "")
    (hall : ∀ k, env k = OsState.value v) :
    ∀ fuel, 1 ≤ fuel →
      GetEnvironmentVariableValue env fuel = some (EnvResult.ok v) := by
  intro fuel hf
  obtain ⟨f, rfl⟩ : ∃ f, fuel = f + 1 := ⟨fuel - 1, by omega⟩
  have hl : v.length ≠ 0 := fun h0 => hv (string_eq_empty_of_length_eq_zero v h0)
  simp only [GetEnvironmentVariableValue]
  rw [show gevCall (env 0) 0 = ⟨v.length + 1, ERROR_SUCCESS, ""⟩
    from by rw [hall 0]; simp [gevCall]]
  have hne : ¬ (v.length + 1 = 0) := by omega
  have h1 : ¬ (v.length + 1 = 1) := by omega
  simp only [hne, if_false, h1]
  rw [gevLoop_succ_value env 1 (v.length + 1) f v (hall 1) hl]
  simp

/-- Helper: every string the `GetEnvironmentVariableValue` retry loop returns
is a value the oracle actually held at some call. -/
theorem gevLoop_ok_src (env : Nat → OsState) :
    ∀ fuel k rs s, gevLoop env k rs fuel = some (EnvResult.ok s) →
      ∃ j, env j = OsState.value s := by
  intro fuel
  induction fuel with
  | zero => intro k rs s h; simp [gevLoop] at h
  | succ f ih =>
      intro k rs s h
      simp only [gevLoop] at h
      cases he : env k with
      | missing => rw [he] at h; simp [gevCall, ERROR_ENVVAR_NOT_FOUND] at h
      | failed c =>
          rw [he] at h
          simp [gevCall] at h
          split_ifs at h <;> simp_all
      | value w =>
          rw [he] at h
          by_cases hfit : w.length + 1 ≤ rs
          · rw [show gevCall (OsState.value w) rs = ⟨w.length, ERROR_SUCCESS, w⟩
              from by simp [gevCall, hfit]] at h
            by_cases hz : w.length = 0
            · simp [hz, ERROR_SUCCESS, ERROR_ENVVAR_NOT_FOUND] at h
            · by_cases hex : rs = w.length + 1
              · simp [hz, hex] at h
                exact ⟨k, by rw [he, h]⟩
              · simp [hz, hex] at h
                exact ih _ _ _ h
          · rw [show gevCall (OsState.value w) rs = ⟨w.length + 1, ERROR_SUCCESS, ""⟩
              from by simp [gevCall, hfit]] at h
            have hex : ¬ (rs = w.length + 1 + 1) := by omega
            simp [hex] at h
            exact ih _ _ _ h

/-- Helper: lifts `gevLoop_ok_src` through the probe call. -/
theorem gev_ok_src (env : Nat → OsState) (fuel : Nat) (s : String)
    (h : GetEnvironmentVariableValue env fuel = some (EnvResult.ok s)) :
    ∃ j, env j = OsState.value s := by
  simp only [GetEnvironmentVariableValue] at h
  cases he : env 0 with
  | missing => rw [he] at h; simp [gevCall, ERROR_ENVVAR_NOT_FOUND] at h
  | failed c =>
      rw [he] at h
      simp [gevCall] at h
      split_ifs at h <;> simp_all
  | value w =>
      rw [show gevCall (env 0) 0 = ⟨w.length + 1, ERROR_SUCCESS, ""⟩
        from by rw [he]; simp [gevCall]] at h
      have hne : ¬ (w.length + 1 = 0) := by omega
      by_cases h1 : w.length + 1 = 1
      · simp [hne, h1] at h
      · simp only [hne, if_false, h1] at h
        exact gevLoop_ok_src env fuel 1 (w.length + 1) s h

/-- C4 as stated is false on the code: against an oracle whose value is "aa"
for the probe and the first fill and "bb" (the final stable value) from every
later call on, the expansion retry loop exits on the first fill — the sizes
match — and returns "aa", not the final stable value "bb".  (`envOf l d` is
constantly `d` from index `l.length` on, as the second conjunct exhibits.) -/
theorem c4_counterexample :
    ExpandEnvironmentVariables
        (envOf [OsState.value "aa", OsState.value "aa"] (OsState.value "bb")) 10 =
      some (EnvResult.ok "aa") ∧
    (fun k => envOf [OsState.value "aa", OsState.value "aa"] (OsState.value "bb") (k + 2)) =
      (fun _ => OsState.value "bb") ∧
    some (EnvResult.ok "aa") ≠ some (EnvResult.ok "bb") := by
  refine ⟨by decide, ?_, by decide⟩
  funext k
  exact List.getD_eq_default _ _ (Nat.le_add_left 2 k)

/-- C4, amended: for every oracle that stabilizes on `.value v` after `N`
calls, both retry loops terminate (fuel `N + 2` and `N + 3` bound the
iterations); every string either operation returns is a complete value the
oracle actually reported at some call — never a truncated prefix, never one
still carrying the terminator; and when the responses are stable from the
first call on, the result is exactly `v` (for `GetEnvironmentVariableValue`,
provided `v` is non-empty, since an empty stable value exits as `notFound`). -/
theorem c4_retry_loop_converges (env : Nat → OsState) (N : Nat) (v : String)
    (hstab : ∀ k, N ≤ k → env k = OsState.value v) :
    (∀ fuel, N + 2 ≤ fuel → (ExpandEnvironmentVariables env fuel).isSome) ∧
    (∀ fuel, N + 3 ≤ fuel → (GetEnvironmentVariableValue env fuel).isSome) ∧
    ((∀ k, env k = OsState.value v) → ∀ fuel, 1 ≤ fuel →
      ExpandEnvironmentVariables env fuel = some (EnvResult.ok v)) ∧
    (v ≠ "" → (∀ k, env k = OsState.value v) → ∀ fuel, 1 ≤ fuel →
      GetEnvironmentVariableValue env fuel = some (EnvResult.ok v)) ∧
    (∀ fuel s, ExpandEnvironmentVariables env fuel = some (EnvResult.ok s) →
      ∃ k, env k = OsState.value s) ∧
    (∀ fuel s, GetEnvironmentVariableValue env fuel = some (EnvResult.ok s) →
      ∃ k, env k = OsState.value s) :=
  ⟨exp_term_total env N v hstab,
   gev_term_total env N v hstab,
   fun hall => exp_exact env v hall,
   fun hv hall => gev_exact env v hv hall,
   fun fuel s h => exp_ok_src env fuel s h,
   fun fuel s h => gev_ok_src env fuel s h⟩

/-- Witness for C4 (amended) at the constant oracle holding "ab". -/
theorem c4_retry_loop_converges_witness :
    (ExpandEnvironmentVariables (envOf [] (OsState.value "ab")) 2).isSome ∧
    (GetEnvironmentVariableValue (envOf [] (OsState.value "ab")) 3).isSome ∧
    ExpandEnvironmentVariables (envOf [] (OsState.value "ab")) 1 =
      some (EnvResult.ok "ab") ∧
    GetEnvironmentVariableValue (envOf [] (OsState.value "ab")) 1 =
      some (EnvResult.ok "ab") ∧
    (∃ j, envOf [] (OsState.value "ab") j = OsState.value "ab") := by
  have h := c4_retry_loop_converges (envOf [] (OsState.value "ab")) 0 "ab"
    (fun k _ => rfl)
  exact ⟨h.1 2 (by omega), h.2.1 3 (by omega),
    h.2.2.1 (fun k => rfl) 1 (by omega),
    h.2.2.2.1 (by decide) (fun k => rfl) 1 (by omega),
    h.2.2.2.2.2 1 "ab" (by decide)⟩

/-- Helper: `ensureDir` never touches the file map. -/
theorem ensureDir_files (okM : List String → Bool) (t : List String) (w : World) :
    (ensureDir okM t w).files = w.files := by
  unfold ensureDir
  split_ifs <;> rfl

/-- Helper: `ensureDir` can only add the directory `t` itself. -/
theorem ensureDir_mem (okM : List String → Bool) (t : List String) (w : World)
    (q : List String) (hne : q ≠ t) :
    q ∈ (ensureDir okM t w).dirs ↔ q ∈ w.dirs := by
  unfold ensureDir
  split_ifs <;> simp_all

/-- Helper: `attemptCopy` never touches the directory set. -/
theorem attemptCopy_dirs (okC : List String → Bool) (d : List String)
    (content : String) (mtime : Nat) (w : World) :
    ((attemptCopy okC d content mtime w).1).dirs = w.dirs := by
  unfold attemptCopy
  split_ifs <;> rfl

mutual
/-- Helper: processing one source entry leaves every destination file outside
the entry's own file paths exactly as it was. -/
theorem copyEntry_files_frame (okC okM : List String → Bool) (target : List String)
    (e : Entry) (w : World) (q : List String) (hq : q ∉ entryFilePaths target e) :
    findFile ((copyEntry okC okM target e w).1).files q = findFile w.files q := by
  cases e with
  | file name content mtime =>
      have hne : q ≠ target ++ [name] := by
        simp [entryFilePaths] at hq
        exact hq
      simp only [copyEntry]
      by_cases hs : shouldSkip w (target ++ [name]) mtime
      · simp [hs]
      · simp only [hs, if_false, attemptCopy]
        by_cases hok : okC (target ++ [name])
        · simp [hok, findFile, hne]
        · simp [hok]
  | dir name children =>
      have hq2 : q ∉ listFilePaths (target ++ [name]) children := by
        simpa [entryFilePaths] using hq
      simp only [copyEntry]
      rw [copyEntries_files_frame okC okM (target ++ [name]) children _ q hq2,
        ensureDir_files]
/-- Helper: the walk over an entry list leaves every destination file outside
the list's file paths exactly as it was. -/
theorem copyEntries_files_frame (okC okM : List String → Bool) (target : List String)
    (es : EntryList) (w : World) (q : List String) (hq : q ∉ listFilePaths target es) :
    findFile ((copyEntries okC okM target es w).1).files q = findFile w.files q := by
  cases es with
  | nil => rfl
  | cons e rest =>
      have h1 : q ∉ entryFilePaths target e := fun h => hq (by simp [listFilePaths, h])
      have h2 : q ∉ listFilePaths target rest := fun h => hq (by simp [listFilePaths, h])
      simp only [copyEntries]
      rw [copyEntries_files_frame okC okM target rest _ q h2,
        copyEntry_files_frame okC okM target e w q h1]
end

mutual
/-- Helper: processing one source entry leaves the existence of every
directory outside the entry's own directory paths unchanged. -/
theorem copyEntry_dirs_frame (okC okM : List String → Bool) (target : List String)
    (e : Entry) (w : World) (q : List String) (hq : q ∉ entryDirPaths target e) :
    (q ∈ ((copyEntry okC okM target e w).1).dirs ↔ q ∈ w.dirs) := by
  cases e with
  | file name content mtime =>
      simp only [copyEntry]
      by_cases hs : shouldSkip w (target ++ [name]) mtime
      · simp [hs]
      · simp only [hs, Bool.false_eq_true, if_false]
        rw [attemptCopy_dirs]
  | dir name children =>
      have hne : q ≠ target ++ [name] := by
        intro h
        exact hq (by simp [entryDirPaths, h])
      have hq2 : q ∉ listDirPaths (target ++ [name]) children := by
        intro h
        exact hq (by simp [entryDirPaths, h])
      simp only [copyEntry]
      exact (copyEntries_dirs_frame okC okM (target ++ [name]) children _ q hq2).trans
        (ensureDir_mem okM (target ++ [name]) w q hne)
/-- Helper: the walk over an entry list leaves the existence of every
directory outside the list's directory paths unchanged. -/
theorem copyEntries_dirs_frame (okC okM : List String → Bool) (target : List String)
    (es : EntryList) (w : World) (q : List String) (hq : q ∉ listDirPaths target es) :
    (q ∈ ((copyEntries okC okM target es w).1).dirs ↔ q ∈ w.dirs) := by
  cases es with
  | nil => exact Iff.rfl
  | cons e rest =>
      have h1 : q ∉ entryDirPaths target e := fun h => hq (by simp [listDirPaths, h])
      have h2 : q ∉ listDirPaths target rest := fun h => hq (by simp [listDirPaths, h])
      simp only [copyEntries]
      exact (copyEntries_dirs_frame okC okM target rest _ q h2).trans
        (copyEntry_dirs_frame okC okM target e w q h1)
end

/-- C8: the mirror step touches nothing outside the source tree's image —
every destination file whose path is not a source file path keeps its exact
entry (content, timestamp, and existence), every directory off the created
set keeps its existence, and through `CopyToDirectory` with
`cleanDestination = false` (guard passing) the same file-frame holds, so
deletion can only come from the clean step with `cleanDestination = true`. -/
theorem c8_stale_entries_untouched (okC okM : List String → Bool) (src : EntryList)
    (target destination : List String) (destStr source : String)
    (w : World) (q : List String) :
    (q ∉ listFilePaths target src →
      findFile ((CopyDirTo okC okM src target w).1).files q = findFile w.files q) ∧
    (q ∉ target :: listDirPaths target src →
      (q ∈ ((CopyDirTo okC okM src target w).1).dirs ↔ q ∈ w.dirs)) ∧
    (strBeginsWith source destStr = false → q ∉ listFilePaths destination src →
      findFile
        ((CopyToDirectory okC okM destination destStr source false src w).2.1).files q =
        findFile w.files q) := by
  refine ⟨fun hq => ?_, fun hq => ?_, fun hg hq => ?_⟩
  · unfold CopyDirTo
    rw [copyEntries_files_frame okC okM target src _ q hq, ensureDir_files]
  · have hne : q ≠ target := fun h => hq (by simp [h])
    have hq2 : q ∉ listDirPaths target src := fun h => hq (by simp [h])
    unfold CopyDirTo
    exact (copyEntries_dirs_frame okC okM target src _ q hq2).trans
      (ensureDir_mem okM target w q hne)
  · simp only [CopyToDirectory, hg, Bool.false_eq_true, if_false, Bool.false_and]
    unfold CopyDirTo
    rw [copyEntries_files_frame okC okM destination src _ q hq, ensureDir_files]

/-- Witness for C8: a stale destination file `dst/stale`, absent from the
source tree, keeps its exact entry across the mirror and across a
`cleanDestination = false` synchronization, and an unrelated directory's
existence is unchanged. -/
theorem c8_stale_entries_untouched_witness :
    findFile ((CopyDirTo allOk allOk (toEntryList [Entry.file "f" "x" 1]) ["dst"]
        ⟨[["dst"]], [(["dst", "stale"], ⟨"s", 7⟩)]⟩).1).files ["dst", "stale"] =
      findFile [(["dst", "stale"], FileInfo.mk "s" 7)] ["dst", "stale"] ∧
    ((["other"] ∈ ((CopyDirTo allOk allOk (toEntryList [Entry.file "f" "x" 1]) ["dst"]
        ⟨[["dst"]], [(["dst", "stale"], ⟨"s", 7⟩)]⟩).1).dirs) ↔
      (["other"] ∈ ([["dst"]] : List (List String)))) ∧
    findFile ((CopyToDirectory allOk allOk ["dst"] "C:\\dst" "D:\\src" false
        (toEntryList [Entry.file "f" "x" 1])
        ⟨[["dst"]], [(["dst", "stale"], ⟨"s", 7⟩)]⟩).2.1).files ["dst", "stale"] =
      findFile [(["dst", "stale"], FileInfo.mk "s" 7)] ["dst", "stale"] := by
  have h := c8_stale_entries_untouched allOk allOk (toEntryList [Entry.file "f" "x" 1])
    ["dst"] ["dst"] "C:\\dst" "D:\\src"
    ⟨[["dst"]], [(["dst", "stale"], ⟨"s", 7⟩)]⟩ ["dst", "stale"]
  have h2 := c8_stale_entries_untouched allOk allOk (toEntryList [Entry.file "f" "x" 1])
    ["dst"] ["dst"] "C:\\dst" "D:\\src"
    ⟨[["dst"]], [(["dst", "stale"], ⟨"s", 7⟩)]⟩ ["other"]
  exact ⟨h.1 (by decide), h2.2.1 (by decide), h.2.2 (by decide) (by decide)⟩
